import Mathlib

/-!
Shallow embedding of the expense-tracker client (src/unnamed/part_000).

Modelling conventions:
* JS strings that only serve as calendar dates ("YYYY-MM-DD") are modelled
  structurally as `CalDate`; a date-time string is a `RawDate` carrying both its
  date part (the result of `.split('T')[0]`) and the instant `new Date(s)`
  denotes.
* Ordering timestamps are modelled by the instant (an `Int`) that
  `new Date(ts)` denotes; the sort comparator
  `(a, b) => new Date(b.timestamp) - new Date(a.timestamp)` becomes integer
  comparison on those instants.
* An `Option` field with value `none` models a JS field that is absent, `null`,
  or `undefined`; `some ""` models a present-but-empty string.  JS truthiness
  (`x || d`) is modelled explicitly (`strOr`, `truthyNat`, `amountOr`), so a
  present empty string and a present `0` behave as falsy, exactly as in JS.
* `amount` values are rationals; `Number(x)` applied to a missing or
  non-numeric field yields NaN, modelled by the `absent` / `nonNumeric`
  constructors of `RawAmount`.
-/

namespace ExpenseTracker

/-- Calendar date (year, month, day), abstracting the "YYYY-MM-DD" strings. -/
structure CalDate where
  year : Nat
  month : Nat
  day : Nat
deriving DecidableEq, Repr

/-- A raw date-time value: its calendar-date part (`.split('T')[0]`) and the
instant `new Date(s)` denotes (for a date-only string, UTC midnight). -/
structure RawDate where
  day : CalDate
  instant : Int
deriving DecidableEq, Repr

/-- Raw value of an `amount` field: absent (`Number(undefined)` is NaN),
present but non-numeric (NaN again), or a finite number. -/
inductive RawAmount where
  | absent
  | nonNumeric
  | num (q : Rat)
deriving DecidableEq

/-- `Number(a) || d`: NaN and `0` are falsy, any other number is kept. -/
def amountOr : RawAmount → Rat → Rat
  | .num q, d => if q = 0 then d else q
  | _, d => d

/-- JS truthiness of an optional string field (absent and `""` are falsy). -/
def truthyStr : Option String → Bool
  | some s => s ≠ ""
  | none => false

/-- `s || d` for string-valued fields. -/
def strOr (o : Option String) (d : String) : String :=
  match o with
  | some s => if s = "" then d else s
  | none => d

/-- JS truthiness of an optional numeric identifier (absent and `0` falsy). -/
def truthyNat : Option Nat → Bool
  | some n => n ≠ 0
  | none => false

/-- `a || b` for identifier fields, read as a `Nat` (`getD 0` is dead code at
the call sites, which are guarded by a truthiness check). -/
def natOr2 (a b : Option Nat) : Nat :=
  if truthyNat a then a.getD 0 else b.getD 0

/-- A raw record as received from the remote service: every field may be
absent.  `timestamp` / `timeStamp` hold the instant the corresponding string
parses to; `expenseDate` is the raw occurrence date. -/
structure RawRec where
  id : Option Nat := none
  expenseId : Option Nat := none
  title : Option String := none
  category : Option String := none
  amount : RawAmount := .absent
  expenseDate : Option RawDate := none
  timestamp : Option Int := none
  timeStamp : Option Int := none
  note : Option String := none
deriving DecidableEq

/-- Canonical expense record (the normalized in-memory shape).
`date = none` models an empty date string (possible through the row editor);
the normalizer itself always produces `some`. -/
@[ext]
structure Expense where
  id : Nat
  title : String
  category : String
  amount : Rat
  date : Option CalDate
  timestamp : Int
  note : String
deriving DecidableEq

/-- The ingest moment: the instant `new Date().toISOString()` denotes and its
calendar-date part `.slice(0, 10)`. -/
structure Now where
  instant : Int
  today : CalDate
deriving DecidableEq

/-- The `.map` body of `fetchExpenses` (also used by the create-fallback
reload): one raw record to canonical form, with defaulted fields.  The
timestamp falls back through `timestamp || timeStamp || expenseDate || now`. -/
def mapRaw (now : Now) (r : RawRec) : Expense :=
  { id := r.id.getD 0
    title := strOr r.title "Untitled"
    category := strOr r.category "General"
    amount := amountOr r.amount 0
    date := some ((r.expenseDate.map RawDate.day).getD now.today)
    timestamp :=
      match r.timestamp, r.timeStamp, r.expenseDate with
      | some t, _, _ => t
      | none, some t, _ => t
      | none, none, some d => d.instant
      | none, none, none => now.instant
    note := strOr r.note "" }

/-- The `.filter(expense => expense && expense.id)` guard over the raw
listing (entries may be `null`, and `id: 0` is falsy). -/
def listKeep : Option RawRec → Bool
  | some r => truthyNat r.id
  | none => false

/-- The filter-then-map phase of `fetchExpenses` (before sorting). -/
def mapListing (now : Now) (raws : List (Option RawRec)) : List Expense :=
  (raws.filter listKeep).filterMap (fun x => x.map (mapRaw now))

/-- Descending-timestamp comparator:
`(a, b) => new Date(b.timestamp) - new Date(a.timestamp)`. -/
def tsLe (a b : Expense) : Bool := b.timestamp ≤ a.timestamp

/-- The `.sort` step applied after load, create, and update. -/
def sortDesc (es : List Expense) : List Expense := es.mergeSort tsLe

/-- The ordering invariant: the timestamp of every earlier record is ≥ the
timestamp of every later record. -/
def sortedDesc (es : List Expense) : Prop :=
  es.Pairwise (fun a b => b.timestamp ≤ a.timestamp)

/-- The payload submitted by the add/edit forms
(`{title, category, amount, date, note}`). -/
structure Submission where
  title : String
  category : String
  amount : Rat
  date : Option CalDate
  note : String
deriving DecidableEq

/-- `handleAdd`: the recognizable-identifier test on the create response,
`response.data.id || response.data.expenseId`. -/
def hasCreateId (r : RawRec) : Bool := truthyNat r.id || truthyNat r.expenseId

/-- `handleAdd`: mapping of a create response that carries an identifier, with
the submitted values as `||`-fallbacks.  Note the timestamp chain here is
`timestamp || timeStamp || now` (no `expenseDate` fallback). -/
def mapCreateResp (now : Now) (sub : Submission) (r : RawRec) : Expense :=
  { id := natOr2 r.id r.expenseId
    title := strOr r.title sub.title
    category := strOr r.category sub.category
    amount := amountOr r.amount sub.amount
    date :=
      match r.expenseDate with
      | some d => some d.day
      | none => sub.date
    timestamp :=
      match r.timestamp, r.timeStamp with
      | some t, _ => t
      | none, some t => t
      | none, none => now.instant
    note := strOr r.note sub.note }

/-- `handleUpdate`: mapping of an update response that carries `id` (fallbacks
to the submitted values; the timestamp chain here does include the
`expenseDate` of the response, then the current instant). -/
def mapUpdateResp (now : Now) (sub : Submission) (r : RawRec) : Expense :=
  { id := r.id.getD 0
    title := strOr r.title sub.title
    category := strOr r.category sub.category
    amount := amountOr r.amount sub.amount
    date :=
      match r.expenseDate with
      | some d => some d.day
      | none => sub.date
    timestamp :=
      match r.timestamp, r.timeStamp, r.expenseDate with
      | some t, _, _ => t
      | none, some t, _ => t
      | none, none, some d => d.instant
      | none, none, none => now.instant
    note := strOr r.note sub.note }

/-- `handleUpdate`: the record synthesized when the response carries no
identifier — submitted values, current instant as the timestamp. -/
def synthUpdate (now : Now) (reqId : Nat) (sub : Submission) : Expense :=
  { id := reqId
    title := sub.title
    category := sub.category
    amount := sub.amount
    date := sub.date
    timestamp := now.instant
    note := sub.note }

/-- Controller state: the in-memory collection and the surfaced error. -/
structure AppState where
  expenses : List Expense
  error : Option String
deriving DecidableEq

def initState : AppState := { expenses := [], error := none }

/-- One reconciliation event.  Each constructor carries the environment data
(remote response, reload listing, ingest moment) its handler consumes;
`resp := none` models a response whose `data` is falsy or not an object, and
the `Fail` constructors model a rejected remote call. -/
inductive Op where
  | load (raws : List (Option RawRec)) (now : Now)
  | loadFail
  | create (sub : Submission) (resp : Option RawRec) (reload : List (Option RawRec)) (now : Now)
  | createFail
  | update (reqId : Nat) (sub : Submission) (resp : Option RawRec) (now : Now)
  | updateFail (detail : String)
  | delete (reqId : Nat)
  | deleteFail

/-- The state transition of each handler (`fetchExpenses`, `handleAdd`,
`handleUpdate`, `handleDelete`), success and failure paths. -/
def applyOp (s : AppState) : Op → AppState
  | .load raws now =>
      { expenses := sortDesc (mapListing now raws), error := none }
  | .loadFail =>
      { expenses := []
        error := some "Failed to load expenses. Please check if the backend is running." }
  | .create sub resp reload now =>
      match resp with
      | some r =>
          if hasCreateId r then
            { expenses := sortDesc (mapCreateResp now sub r :: s.expenses), error := none }
          else
            { expenses := sortDesc (mapListing now reload), error := none }
      | none => { expenses := sortDesc (mapListing now reload), error := none }
  | .createFail =>
      { s with error := some "Failed to add expense. Please try again." }
  | .update reqId sub resp now =>
      let mapped :=
        match resp with
        | some r =>
            if truthyNat r.id then mapUpdateResp now sub r else synthUpdate now reqId sub
        | none => synthUpdate now reqId sub
      { expenses := sortDesc (s.expenses.map fun e => if e.id = reqId then mapped else e)
        error := none }
  | .updateFail detail =>
      { s with error := some ("Failed to update expense: " ++ detail) }
  | .delete reqId =>
      { expenses := s.expenses.filter fun e => e.id ≠ reqId
        error := none }
  | .deleteFail =>
      { s with error := some "Failed to delete expense. Please try again." }

/-- Gregorian leap year. -/
def isLeap (y : Nat) : Bool := (y % 4 = 0 && y % 100 ≠ 0) || y % 400 = 0

def daysInMonth (y m : Nat) : Nat :=
  if m = 2 then (if isLeap y then 29 else 28)
  else if m = 4 ∨ m = 6 ∨ m = 9 ∨ m = 11 then 30
  else 31

/-- The calendar day before `d`. -/
def prevDay (d : CalDate) : CalDate :=
  if 1 < d.day then ⟨d.year, d.month, d.day - 1⟩
  else if 1 < d.month then ⟨d.year, d.month - 1, daysInMonth d.year (d.month - 1)⟩
  else ⟨d.year - 1, 12, 31⟩

/-- `new Date(dateOnly)` parses at UTC midnight, and `getFullYear` /
`getMonth` then read local-time components at a UTC offset of `tzMin`
minutes: the same calendar day for offsets ≥ 0, the previous day for
negative offsets (offsets are smaller than a day in magnitude). -/
def localYearMonth (tzMin : Int) (d : CalDate) : Nat × Nat :=
  if 0 ≤ tzMin then (d.year, d.month)
  else ((prevDay d).year, (prevDay d).month)

/-- The month-filter predicate of `filteredExpenses` (the `year-month` key
string is abstracted as a year/month pair). -/
def monthPass (tzMin : Int) (sel : Nat × Nat) (e : Expense) : Bool :=
  match e.date with
  | none => false
  | some d => localYearMonth tzMin d = sel

/-- JS `String.prototype.trim`: drop leading and trailing whitespace
(modelled over the character list). -/
def trimStr (s : String) : String :=
  ⟨((s.data.dropWhile Char.isWhitespace).reverse.dropWhile Char.isWhitespace).reverse⟩

/-- JS `String.prototype.toLowerCase` (ASCII-level model). -/
def lowerStr (s : String) : String := ⟨s.data.map Char.toLower⟩

/-- JS `String.prototype.includes`: contiguous-substring test. -/
def strIncludes (s pat : String) : Bool := decide (pat.toList <:+: s.toList)

/-- The free-text predicate: the query occurs in the lowercased title,
category, or note. -/
def textPass (q : String) (e : Expense) : Bool :=
  strIncludes (lowerStr e.title) q || strIncludes (lowerStr e.category) q ||
    strIncludes (lowerStr e.note) q

/-- `filteredExpenses`: trim + lowercase the query, filter by the selected
month when one is selected (`sel = none` models the empty key string), then
by the query when it is nonempty. -/
def filteredExpenses (tzMin : Int) (sel : Option (Nat × Nat)) (filter : String)
    (es : List Expense) : List Expense :=
  let q := lowerStr (trimStr filter)
  let afterMonth :=
    match sel with
    | none => es
    | some k => es.filter (monthPass tzMin k)
  if q = "" then afterMonth else afterMonth.filter (textPass q)

/-- The key `(e.category || "General").trim() || "General"` of `categoryAgg`. -/
def catKey (e : Expense) : String :=
  let base := if e.category = "" then "General" else e.category
  if trimStr base = "" then "General" else trimStr base

/-- Insertion-ordered map update, the JS `Map.set` pattern
`map.set(key, (map.get(key) || 0) + v)`: add to the first entry with this key
or append a new entry at the end. -/
def upsert : List (String × Rat) → String → Rat → List (String × Rat)
  | [], k, v => [(k, v)]
  | (a, b) :: rest, k, v =>
      if a = k then (a, b + v) :: rest else (a, b) :: upsert rest k v

/-- `categoryAgg`: fold the filtered records into an insertion-ordered map,
then read off labels and values (`Number(e.amount || 0)` is `e.amount` for a
canonical record). -/
def categoryAgg (es : List Expense) : List String × List Rat :=
  let m := es.foldl (fun m e => upsert m (catKey e) e.amount) []
  (m.map Prod.fst, m.map Prod.snd)

/-- Labels in first-seen (insertion) order, stated from the words of the spec. -/
def seenKeys (es : List Expense) : List String :=
  es.foldl (fun acc e => if catKey e ∈ acc then acc else acc ++ [catKey e]) []

/-- Per-group total, stated from the words of the spec. -/
def groupSum (es : List Expense) (l : String) : Rat :=
  ((es.filter fun e => catKey e = l).map Expense.amount).sum

/-- Value stored under key `k` (first matching entry, 0 when absent). -/
def lookupV (m : List (String × Rat)) (k : String) : Rat :=
  ((m.find? fun p => p.1 = k).map Prod.snd).getD 0

/-- Reading a canonical record back through the raw-record field names:
canonical records carry `date`, not `expenseDate`, so the normalizer sees no
occurrence date; the stored timestamp string is always nonempty, hence
present. -/
def toRaw (e : Expense) : RawRec :=
  { id := some e.id
    expenseId := none
    title := some e.title
    category := some e.category
    amount := .num e.amount
    expenseDate := none
    timestamp := some e.timestamp
    timeStamp := none
    note := some e.note }

/-- A raw amount that is not a negative number. -/
def rawAmtOk : RawAmount → Bool
  | .num q => decide (0 ≤ q)
  | _ => true

def rawOk : Option RawRec → Bool
  | some r => rawAmtOk r.amount
  | none => true

/-- The form guard (`isNaN(amt) || amt <= 0` is rejected) gives submitted
amounts > 0; nonnegativity is all the amended claim needs. -/
def subOk (sub : Submission) : Bool := decide (0 ≤ sub.amount)

/-- Environment condition for the amended amount claim: no raw amount in the
event is a negative number, and the submitted amount is nonnegative. -/
def opOk : Op → Bool
  | .load raws _ => raws.all rawOk
  | .create sub resp reload _ => subOk sub && rawOk resp && reload.all rawOk
  | .update _ sub resp _ => subOk sub && rawOk resp
  | _ => true

/-! ## Helper lemmas -/

theorem sortDesc_sorted (es : List Expense) : sortedDesc (sortDesc es) := by
  have h : (es.mergeSort tsLe).Pairwise (fun a b => tsLe a b) := by
    apply List.sorted_mergeSort
    · intro a b c hab hbc
      simp only [tsLe, decide_eq_true_eq] at *
      omega
    · intro a b
      simp only [tsLe, Bool.or_eq_true, decide_eq_true_eq]
      omega
  exact h.imp fun hab => by simpa [tsLe] using hab

theorem applyOp_sorted (s : AppState) (op : Op) (h : sortedDesc s.expenses) :
    sortedDesc (applyOp s op).expenses := by
  cases op with
  | load raws now => exact sortDesc_sorted _
  | loadFail => exact List.Pairwise.nil
  | create sub resp reload now =>
      cases resp with
      | some r =>
          by_cases hid : hasCreateId r = true
          · simpa [applyOp, hid] using sortDesc_sorted (mapCreateResp now sub r :: s.expenses)
          · simpa [applyOp, hid] using sortDesc_sorted (mapListing now reload)
      | none => exact sortDesc_sorted _
  | createFail => exact h
  | update reqId sub resp now => exact sortDesc_sorted _
  | updateFail detail => exact h
  | delete reqId => exact List.Pairwise.filter _ h
  | deleteFail => exact h

theorem run_sorted (ops : List Op) (s : AppState) (h : sortedDesc s.expenses) :
    sortedDesc ((ops.foldl applyOp s).expenses) := by
  induction ops generalizing s with
  | nil => exact h
  | cons op rest ih => exact ih (applyOp s op) (applyOp_sorted s op h)

/-! ## Claims -/

/-- Claim C1: after any sequence of operations (initial load, create, update,
delete — success or failure paths) starting from the empty initial state, the
in-memory expense collection is in descending-timestamp order: for every pair
of records, the timestamp of the earlier record is ≥ that of the later. -/
theorem c1_ordering_invariant (ops : List Op) :
    sortedDesc ((ops.foldl applyOp initState).expenses) :=
  run_sorted ops initState List.Pairwise.nil

def c2now : Now := { instant := 500, today := ⟨2025, 10, 12⟩ }

def c2rec : Expense :=
  { id := 1, title := "Untitled", category := "General", amount := 0,
    date := some ⟨2024, 1, 15⟩, timestamp := 100, note := "" }

/-- Claim C2 counterexample: `c2rec` is a canonical record exactly as the
normalizer produces it (first conjunct: it is the normalization of a plain raw
record at the very same ingest moment), yet re-normalizing it does not return
it unchanged — the `date` field drifts to the re-ingest day, because the
normalizer reads the raw field name `expenseDate`, which canonical records do
not carry. -/
theorem c2_renormalize_not_idempotent :
    mapRaw c2now { id := some 1, expenseDate := some ⟨⟨2024, 1, 15⟩, 100⟩ } = c2rec ∧
    mapRaw c2now (toRaw c2rec) ≠ c2rec ∧
    (mapRaw c2now (toRaw c2rec)).date = some ⟨2025, 10, 12⟩ ∧
    c2rec.date = some ⟨2024, 1, 15⟩ := by
  refine ⟨by decide, ?_, rfl, rfl⟩
  decide

/-- Claim C2 amended: re-normalizing an already-canonical record (one with the
nonempty `title` and `category` the normalizer emits) preserves every field except
`date`, which resets to the re-ingest day (the normalizer looks for the raw
field name `expenseDate`, absent from canonical records); consequently the
record is a fixed point of re-normalization iff its date equals the re-ingest
day. -/
theorem c2_renormalize_drifts_only_date (now : Now) (e : Expense)
    (ht : e.title ≠ "") (hc : e.category ≠ "") :
    mapRaw now (toRaw e) = { e with date := some now.today } ∧
    (mapRaw now (toRaw e) = e ↔ e.date = some now.today) := by
  have htit : strOr (some e.title) "Untitled" = e.title := by simp [strOr, ht]
  have hcat : strOr (some e.category) "General" = e.category := by simp [strOr, hc]
  have hnote : strOr (some e.note) "" = e.note := by
    by_cases hn : e.note = "" <;> simp [strOr, hn]
  have hamt : amountOr (RawAmount.num e.amount) 0 = e.amount := by
    by_cases ha : e.amount = 0 <;> simp [amountOr, ha]
  have h1 : mapRaw now (toRaw e) = { e with date := some now.today } := by
    simp [mapRaw, toRaw, htit, hcat, hnote, hamt]
  refine ⟨h1, ?_⟩
  rw [h1]
  constructor
  · intro h
    have := congrArg Expense.date h
    simpa using this.symm
  · intro h
    apply Expense.ext <;> simp [h]

/-- Claim C2 amended, witness: a canonical record whose date is the re-ingest
day is preserved exactly; `c2rec` re-normalized at its own ingest day. -/
theorem c2_renormalize_drifts_only_date_witness :
    mapRaw ⟨100, ⟨2024, 1, 15⟩⟩ (toRaw c2rec) = c2rec :=
  ((c2_renormalize_drifts_only_date ⟨100, ⟨2024, 1, 15⟩⟩ c2rec
      (by decide) (by decide)).2).mpr (by decide)

def c3raw : RawRec := { id := some 1, amount := .num (-5) }

def c3now : Now := { instant := 0, today := ⟨2025, 10, 12⟩ }

/-- Claim C3 counterexample: a raw record with a negative numeric amount
normalizes to a canonical record with a negative amount — the coercion
`Number(amount) || 0` only replaces NaN and 0, it does not clamp negatives. -/
theorem c3_negative_amount_passes :
    (mapRaw c3now c3raw).amount = -5 ∧ ¬ (0 ≤ (mapRaw c3now c3raw).amount) := by
  constructor
  · rfl
  · decide

theorem mapRaw_amount_nonneg (now : Now) (r : RawRec) (h : rawAmtOk r.amount = true) :
    0 ≤ (mapRaw now r).amount := by
  show 0 ≤ amountOr r.amount 0
  cases hr : r.amount with
  | absent => simp [amountOr]
  | nonNumeric => simp [amountOr]
  | num q =>
      rw [hr] at h
      simp only [rawAmtOk, decide_eq_true_eq] at h
      by_cases hq : q = 0 <;> simp [amountOr, hq, h]

theorem amountOr_nonneg (a : RawAmount) (d : Rat) (ha : rawAmtOk a = true) (hd : 0 ≤ d) :
    0 ≤ amountOr a d := by
  cases a with
  | absent => simpa [amountOr] using hd
  | nonNumeric => simpa [amountOr] using hd
  | num q =>
      simp only [rawAmtOk, decide_eq_true_eq] at ha
      by_cases hq : q = 0 <;> simp [amountOr, hq, ha, hd]

theorem mapListing_amount_nonneg (now : Now) (raws : List (Option RawRec))
    (h : raws.all rawOk = true) :
    ∀ e ∈ mapListing now raws, 0 ≤ e.amount := by
  intro e he
  simp only [mapListing, List.mem_filterMap, List.mem_filter] at he
  obtain ⟨x, ⟨hx, _⟩, hmap⟩ := he
  cases x with
  | none => simp at hmap
  | some r =>
      simp at hmap
      subst hmap
      have := (List.all_eq_true.mp h) _ hx
      exact mapRaw_amount_nonneg now r this

theorem applyOp_amount_nonneg (s : AppState) (op : Op) (hok : opOk op = true)
    (h : ∀ e ∈ s.expenses, 0 ≤ e.amount) :
    ∀ e ∈ (applyOp s op).expenses, 0 ≤ e.amount := by
  cases op with
  | load raws now =>
      intro e he
      simp only [applyOp, sortDesc, List.mem_mergeSort] at he
      exact mapListing_amount_nonneg now raws hok e he
  | loadFail => intro e he; simp [applyOp] at he
  | create sub resp reload now =>
      simp only [opOk, Bool.and_eq_true] at hok
      obtain ⟨⟨hsub, hresp⟩, hreload⟩ := hok
      intro e he
      cases resp with
      | none =>
          simp only [applyOp, sortDesc, List.mem_mergeSort] at he
          exact mapListing_amount_nonneg now reload hreload e he
      | some r =>
          by_cases hid : hasCreateId r = true
          · simp only [applyOp, hid, if_true, sortDesc, List.mem_mergeSort,
              List.mem_cons] at he
            rcases he with he | he
            · subst he
              show 0 ≤ amountOr r.amount sub.amount
              exact amountOr_nonneg r.amount sub.amount hresp
                (by simpa [subOk] using hsub)
            · exact h e he
          · simp only [applyOp, hid, if_false, Bool.false_eq_true, sortDesc,
              List.mem_mergeSort] at he
            exact mapListing_amount_nonneg now reload hreload e he
  | createFail => exact h
  | update reqId sub resp now =>
      simp only [opOk, Bool.and_eq_true] at hok
      obtain ⟨hsub, hresp⟩ := hok
      have hsub' : 0 ≤ sub.amount := by simpa [subOk] using hsub
      intro e he
      simp only [applyOp, sortDesc, List.mem_mergeSort, List.mem_map] at he
      obtain ⟨x, hx, hxe⟩ := he
      by_cases hxid : x.id = reqId
      · rw [if_pos hxid] at hxe
        subst hxe
        cases resp with
        | none => exact hsub'
        | some r =>
            by_cases hid : truthyNat r.id = true
            · simp only [hid, if_true]
              show 0 ≤ amountOr r.amount sub.amount
              exact amountOr_nonneg r.amount sub.amount hresp hsub'
            · simp only [hid, if_false]
              exact hsub'
      · rw [if_neg hxid] at hxe
        subst hxe
        exact h x hx
  | updateFail detail => exact h
  | delete reqId =>
      intro e he
      simp only [applyOp, List.mem_filter] at he
      exact h e he.1
  | deleteFail => exact h

theorem run_amount_nonneg (ops : List Op) (s : AppState)
    (hok : ∀ op ∈ ops, opOk op = true) (h : ∀ e ∈ s.expenses, 0 ≤ e.amount) :
    ∀ e ∈ ((ops.foldl applyOp s).expenses), 0 ≤ e.amount := by
  induction ops generalizing s with
  | nil => exact h
  | cons op rest ih =>
      exact ih (applyOp s op) (fun o ho => hok o (List.mem_cons_of_mem _ ho))
        (applyOp_amount_nonneg s op (hok op (List.mem_cons_self _ _)) h)

/-- Claim C3 amended: the canonical `amount` is guaranteed nonnegative only
when no raw amount arriving from the remote service is a negative number (the
coercion `Number(amount) || 0` maps absent, non-numeric, and zero inputs to 0
but passes negative numbers through); under that environment condition —
together with the form guard that keeps submitted amounts positive — every
record in the collection has `amount ≥ 0` after any sequence of operations. -/
theorem c3_amounts_nonneg (ops : List Op) (hok : ∀ op ∈ ops, opOk op = true) :
    ∀ e ∈ ((ops.foldl applyOp initState).expenses), 0 ≤ e.amount :=
  run_amount_nonneg ops initState hok (by intro e he; simp [initState] at he)

def c3ops : List Op :=
  [Op.load [some { id := some 1, amount := .num 7, title := some "Tea" }] c3now]

/-- Claim C3 amended, witness: a load of one well-formed record satisfies the
environment condition and yields a collection whose amounts are ≥ 0. -/
theorem c3_amounts_nonneg_witness :
    (∀ op ∈ c3ops, opOk op = true) ∧
    ∀ e ∈ ((c3ops.foldl applyOp initState).expenses), 0 ≤ e.amount :=
  ⟨by decide, c3_amounts_nonneg c3ops (by decide)⟩

def c4raw : RawRec := { expenseId := some 7, title := some "Coffee" }

/-- Claim C4 counterexample: a listing record carrying an identifier only
under the alternative accepted name (`expenseId`, which the create-response
path recognizes) is nevertheless excluded by the listing filter, which tests
the single field name `id`.  So admission from the listing is not "identifier
accepted under more than one possible field name". -/
theorem c4_listing_drops_alt_id :
    hasCreateId c4raw = true ∧ mapListing c3now [some c4raw] = [] := by
  constructor
  · rfl
  · rfl

/-- Claim C4 amended: a raw record from the listing operation is admitted into
the normalized collection iff it is non-null and its `id` field is present and
truthy — a single accepted field name on this path (the two-name check
`id || expenseId` applies only to create responses); every listing record
lacking a truthy `id` is excluded entirely. -/
theorem c4_listing_admission (now : Now) (raws : List (Option RawRec)) :
    ∀ x, x ∈ mapListing now raws ↔
      ∃ r, some r ∈ raws ∧ truthyNat r.id = true ∧ x = mapRaw now r := by
  intro x
  simp only [mapListing, List.mem_filterMap, List.mem_filter]
  constructor
  · rintro ⟨o, ⟨ho, hkeep⟩, hmap⟩
    cases o with
    | none => simp [listKeep] at hkeep
    | some r =>
        simp only [listKeep] at hkeep
        simp at hmap
        exact ⟨r, ho, hkeep, hmap.symm⟩
  · rintro ⟨r, hr, hid, hx⟩
    exact ⟨some r, ⟨hr, by simpa [listKeep] using hid⟩, by simp [hx]⟩

def c5rec : Expense :=
  { id := 1, title := "Rent", category := "Bills", amount := 900,
    date := some ⟨2024, 2, 1⟩, timestamp := 0, note := "" }

/-- Claim C5 counterexample: in an environment behind UTC (offset -300
minutes), the record dated 2024-02-01 passes the month filter for the key
2024-01 — not for its own calendar month — because `new Date("2024-02-01")`
parses at UTC midnight and `getFullYear`/`getMonth` then read local-time
components, shifting the day back by one.  So the filter does reinterpret the
date through the environment timezone, contradicting the clause "no timezone
reinterpretation" of the claim. -/
theorem c5_month_filter_tz_shift :
    c5rec.date = some ⟨2024, 2, 1⟩ ∧
    monthPass (-300) (2024, 1) c5rec = true ∧
    monthPass (-300) (2024, 2) c5rec = false := by
  refine ⟨rfl, ?_, ?_⟩ <;> decide

/-- Claim C5 amended: a record with no date never passes the month filter; a
record with a date passes iff the year-month of the local-time reading of the
UTC-midnight instant of that date equals the selected key — that is the
calendar year and month of the date itself exactly in environments at or
ahead of UTC (offset ≥ 0), and those of the previous calendar day in environments
behind UTC (offset < 0). -/
theorem c5_month_filter_characterization (tzMin : Int) (k : Nat × Nat) (e : Expense) :
    (e.date = none → monthPass tzMin k e = false) ∧
    (∀ d, e.date = some d →
      (monthPass tzMin k e = true ↔ localYearMonth tzMin d = k)) ∧
    (∀ d, 0 ≤ tzMin → localYearMonth tzMin d = (d.year, d.month)) ∧
    (∀ d, tzMin < 0 →
      localYearMonth tzMin d = ((prevDay d).year, (prevDay d).month)) := by
  refine ⟨?_, ?_, ?_, ?_⟩
  · intro h
    simp [monthPass, h]
  · intro d hd
    simp [monthPass, hd]
  · intro d h
    simp [localYearMonth, h]
  · intro d h
    have : ¬ (0 ≤ tzMin) := by omega
    simp [localYearMonth, this]

/-- Claim C5 amended, witness: at offset +60 the record dated 2024-02-01
passes the 2024-02 filter. -/
theorem c5_month_filter_characterization_witness :
    monthPass 60 (2024, 2) c5rec = true :=
  ((c5_month_filter_characterization 60 (2024, 2) c5rec).2.1 ⟨2024, 2, 1⟩ rfl).mpr
    (by decide)

/-- Claim C6: when the create response lacks a recognizable identifier
(whether its `data` is not an object, or is an object with neither a truthy
`id` nor a truthy `expenseId`), the controller discards the response and
replaces the local collection wholesale — for any prior state `s` — with the
full listing reload, re-normalized (`mapListing`) and re-sorted in
descending-timestamp order (`sortDesc`); the result satisfies the ordering
invariant. -/
theorem c6_create_fallback_reload (s : AppState) (sub : Submission)
    (reload : List (Option RawRec)) (now : Now) :
    (applyOp s (.create sub none reload now)).expenses =
      sortDesc (mapListing now reload) ∧
    (∀ r, hasCreateId r = false →
      (applyOp s (.create sub (some r) reload now)).expenses =
        sortDesc (mapListing now reload)) ∧
    sortedDesc (sortDesc (mapListing now reload)) ∧
    (applyOp s (.create sub none reload now)).error = none := by
  refine ⟨rfl, ?_, sortDesc_sorted _, rfl⟩
  intro r h
  simp [applyOp, h]

def c6resp : RawRec := { title := some "ok" }

def c6reload : List (Option RawRec) :=
  [some { id := some 2, title := some "Tea", amount := .num 3,
          timestamp := some 50 },
   some { id := some 1, title := some "Bus", amount := .num 2,
          timestamp := some 80 }]

/-- Claim C6, witness: a create response that is an object without identifier
triggers the fallback at a concrete state; the collection becomes the sorted
reload. -/
theorem c6_create_fallback_reload_witness :
    (applyOp initState
        (.create ⟨"Tea", "Food", 3, some ⟨2024, 1, 2⟩, ""⟩ (some c6resp)
          c6reload c3now)).expenses =
      sortDesc (mapListing c3now c6reload) :=
  (c6_create_fallback_reload initState ⟨"Tea", "Food", 3, some ⟨2024, 1, 2⟩, ""⟩
      c6reload c3now).2.1 c6resp (by decide)

/-- Claim C7: every failing create, update, or delete leaves the collection
exactly as it was and surfaces the human-readable message of the handler (the
update message carrying the remote detail); every succeeding create, update,
or delete clears any previously surfaced error. -/
theorem c7_failure_preserves_success_clears (s : AppState) (detail : String)
    (sub : Submission) (resp : Option RawRec) (reload : List (Option RawRec))
    (now : Now) (reqId : Nat) :
    (applyOp s .createFail).expenses = s.expenses ∧
    (applyOp s .createFail).error = some "Failed to add expense. Please try again." ∧
    (applyOp s (.updateFail detail)).expenses = s.expenses ∧
    (applyOp s (.updateFail detail)).error =
      some ("Failed to update expense: " ++ detail) ∧
    (applyOp s .deleteFail).expenses = s.expenses ∧
    (applyOp s .deleteFail).error =
      some "Failed to delete expense. Please try again." ∧
    (applyOp s (.create sub resp reload now)).error = none ∧
    (applyOp s (.update reqId sub resp now)).error = none ∧
    (applyOp s (.delete reqId)).error = none := by
  refine ⟨rfl, rfl, rfl, rfl, rfl, rfl, ?_, rfl, rfl⟩
  cases resp with
  | none => rfl
  | some r => by_cases h : hasCreateId r = true <;> simp [applyOp, h]

/-- First-seen key accumulation from an arbitrary starting list. -/
def seenAcc (acc : List String) (es : List Expense) : List String :=
  es.foldl (fun acc e => if catKey e ∈ acc then acc else acc ++ [catKey e]) acc

theorem lookupV_cons (a : String) (b : Rat) (m : List (String × Rat)) (x : String) :
    lookupV ((a, b) :: m) x = if a = x then b else lookupV m x := by
  by_cases h : a = x
  · simp [lookupV, List.find?_cons, h]
  · simp [lookupV, List.find?_cons, h]

theorem upsert_keys (m : List (String × Rat)) (k : String) (v : Rat) :
    (upsert m k v).map Prod.fst =
      if k ∈ m.map Prod.fst then m.map Prod.fst else m.map Prod.fst ++ [k] := by
  induction m with
  | nil => simp [upsert]
  | cons p rest ih =>
      obtain ⟨a, b⟩ := p
      by_cases h : a = k
      · subst h
        simp [upsert]
      · have h2 : ¬ (k = a) := fun hk => h hk.symm
        simp only [upsert, if_neg h, List.map_cons, ih]
        by_cases hk : k ∈ rest.map Prod.fst
        · simp [hk, h2]
        · simp [hk, h2]

theorem lookupV_upsert (m : List (String × Rat)) (k x : String) (v : Rat) :
    lookupV (upsert m k v) x = lookupV m x + if x = k then v else 0 := by
  induction m with
  | nil =>
      by_cases h : k = x
      · subst h
        simp [upsert, lookupV_cons, lookupV]
      · have h2 : ¬ (x = k) := fun hk => h hk.symm
        simp [upsert, lookupV_cons, lookupV, h, h2]
  | cons p rest ih =>
      obtain ⟨a, b⟩ := p
      by_cases hak : a = k
      · subst hak
        by_cases hax : a = x
        · subst hax
          simp [upsert, lookupV_cons]
        · have h2 : ¬ (x = a) := fun hk => hax hk.symm
          simp [upsert, lookupV_cons, hax, h2]
      · by_cases hax : a = x
        · subst hax
          simp [upsert, lookupV_cons, hak]
        · simp [upsert, lookupV_cons, hak, hax, ih]

theorem upsert_keys_nodup (m : List (String × Rat)) (k : String) (v : Rat)
    (h : (m.map Prod.fst).Nodup) : ((upsert m k v).map Prod.fst).Nodup := by
  rw [upsert_keys]
  by_cases hk : k ∈ m.map Prod.fst
  · simpa [hk] using h
  · simp only [hk, if_false]
    simp [List.nodup_append, h, hk]

theorem map_snd_eq_lookup (m : List (String × Rat))
    (h : (m.map Prod.fst).Nodup) :
    m.map Prod.snd = (m.map Prod.fst).map (lookupV m) := by
  induction m with
  | nil => rfl
  | cons p rest ih =>
      obtain ⟨a, b⟩ := p
      simp only [List.map_cons] at h ⊢
      have ha : a ∉ rest.map Prod.fst := (List.nodup_cons.mp h).1
      have hr := (List.nodup_cons.mp h).2
      have h1 : lookupV ((a, b) :: rest) a = b := by simp [lookupV_cons]
      have h2 : (rest.map Prod.fst).map (lookupV ((a, b) :: rest)) =
          (rest.map Prod.fst).map (lookupV rest) := by
        apply List.map_congr_left
        intro x hx
        rw [lookupV_cons, if_neg]
        intro hax
        exact ha (hax ▸ hx)
      rw [h1, h2, ← ih hr]

theorem fold_keys (es : List Expense) (m : List (String × Rat)) :
    ((es.foldl (fun m e => upsert m (catKey e) e.amount) m).map Prod.fst) =
      seenAcc (m.map Prod.fst) es := by
  induction es generalizing m with
  | nil => rfl
  | cons e rest ih =>
      rw [List.foldl_cons, ih, upsert_keys]
      simp only [seenAcc, List.foldl_cons]

theorem fold_keys_nodup (es : List Expense) (m : List (String × Rat))
    (h : (m.map Prod.fst).Nodup) :
    ((es.foldl (fun m e => upsert m (catKey e) e.amount) m).map Prod.fst).Nodup := by
  induction es generalizing m with
  | nil => exact h
  | cons e rest ih => exact ih _ (upsert_keys_nodup _ _ _ h)

theorem groupSum_cons (e : Expense) (rest : List Expense) (x : String) :
    groupSum (e :: rest) x = (if x = catKey e then e.amount else 0) + groupSum rest x := by
  by_cases h : catKey e = x
  · subst h
    simp [groupSum, List.filter_cons]
  · have h2 : ¬ (x = catKey e) := fun hk => h hk.symm
    simp [groupSum, List.filter_cons, h, h2]

theorem fold_lookup (es : List Expense) (m : List (String × Rat)) (x : String) :
    lookupV (es.foldl (fun m e => upsert m (catKey e) e.amount) m) x =
      lookupV m x + groupSum es x := by
  induction es generalizing m with
  | nil => simp [groupSum, lookupV]
  | cons e rest ih =>
      rw [List.foldl_cons, ih, lookupV_upsert, groupSum_cons]
      ring

/-- Claim C8: the category aggregation equals grouping by the folded category
key — an empty or whitespace-only category folds into "General" — with labels
in first-seen (insertion) order and the values positionally aligned as the
per-label amount sums over the filtered subset. -/
theorem c8_category_aggregation (es : List Expense) :
    categoryAgg es = (seenKeys es, (seenKeys es).map (groupSum es)) ∧
    ∀ e, catKey e =
      (if trimStr e.category = "" then "General" else trimStr e.category) := by
  constructor
  · have hkeys : ((es.foldl (fun m e => upsert m (catKey e) e.amount) []).map Prod.fst) =
        seenKeys es := fold_keys es []
    have hnd : ((es.foldl (fun m e => upsert m (catKey e) e.amount) []).map Prod.fst).Nodup :=
      fold_keys_nodup es [] (by simp)
    have hsnd := map_snd_eq_lookup _ hnd
    have hlook : lookupV (es.foldl (fun m e => upsert m (catKey e) e.amount) []) =
        groupSum es := by
      funext x
      have h := fold_lookup es [] x
      simpa [lookupV] using h
    show ((es.foldl (fun m e => upsert m (catKey e) e.amount) []).map Prod.fst,
          (es.foldl (fun m e => upsert m (catKey e) e.amount) []).map Prod.snd) = _
    rw [hsnd, hlook, hkeys]
  · intro e
    have hgen : trimStr "General" = "General" := rfl
    have hemp : trimStr "" = "" := rfl
    by_cases hc : e.category = ""
    · simp [catKey, hc, hgen, hemp]
    · simp [catKey, hc]

def c9resp : RawRec := { id := some 3, amount := .num 0 }

def c9sub : Submission :=
  { title := "Lunch", category := "Food", amount := 5,
    date := some ⟨2024, 1, 2⟩, note := "" }

def c9now : Now := { instant := 10, today := ⟨2024, 1, 2⟩ }

/-- Claim C9 counterexample: the create response includes the `amount` field
(with value 0) and carries an identifier, yet the inserted record takes the
submitted amount — `Number(response.data.amount) || newExpense.amount` tests
the coerced number for truthiness, not the field for presence. -/
theorem c9_amount_zero_falls_back :
    c9resp.amount = RawAmount.num 0 ∧
    hasCreateId c9resp = true ∧
    (mapCreateResp c9now c9sub c9resp).amount = 5 ∧
    (5 : Rat) ≠ 0 := by
  refine ⟨rfl, rfl, ?_, by decide⟩
  decide

/-- Claim C9 amended: on a create response carrying a recognizable
identifier, each submitted field of the inserted record is taken from the
response when the response holds a truthy value for it (a nonempty string;
for `amount`, a number other than 0; for the date, any present value) and
falls back to the submitted value when the response omits it — but also when
the value in the response is falsy: an amount of 0 or a non-numeric amount falls
back to the submitted amount even though the response includes the field. -/
theorem c9_create_field_fallback (now : Now) (sub : Submission) (r : RawRec) :
    (∀ s, r.title = some s → s ≠ "" → (mapCreateResp now sub r).title = s) ∧
    (r.title = none → (mapCreateResp now sub r).title = sub.title) ∧
    (∀ s, r.category = some s → s ≠ "" → (mapCreateResp now sub r).category = s) ∧
    (r.category = none → (mapCreateResp now sub r).category = sub.category) ∧
    (∀ s, r.note = some s → s ≠ "" → (mapCreateResp now sub r).note = s) ∧
    (r.note = none → (mapCreateResp now sub r).note = sub.note) ∧
    (∀ d, r.expenseDate = some d → (mapCreateResp now sub r).date = some d.day) ∧
    (r.expenseDate = none → (mapCreateResp now sub r).date = sub.date) ∧
    (∀ q, r.amount = RawAmount.num q → q ≠ 0 →
      (mapCreateResp now sub r).amount = q) ∧
    ((r.amount = RawAmount.absent ∨ r.amount = RawAmount.nonNumeric ∨
        r.amount = RawAmount.num 0) →
      (mapCreateResp now sub r).amount = sub.amount) := by
  refine ⟨?_, ?_, ?_, ?_, ?_, ?_, ?_, ?_, ?_, ?_⟩
  · intro s h hs; simp [mapCreateResp, strOr, h, hs]
  · intro h; simp [mapCreateResp, strOr, h]
  · intro s h hs; simp [mapCreateResp, strOr, h, hs]
  · intro h; simp [mapCreateResp, strOr, h]
  · intro s h hs; simp [mapCreateResp, strOr, h, hs]
  · intro h; simp [mapCreateResp, strOr, h]
  · intro d h; simp [mapCreateResp, h]
  · intro h; simp [mapCreateResp, h]
  · intro q h hq; simp [mapCreateResp, amountOr, h, hq]
  · rintro (h | h | h) <;> simp [mapCreateResp, amountOr, h]

def c9wresp : RawRec := { id := some 4, title := some "Taxi", amount := .num 7 }

/-- Claim C9 amended, witness: a response carrying title "Taxi" and amount 7
supplies those fields; the omitted category falls back to the submission. -/
theorem c9_create_field_fallback_witness :
    (mapCreateResp c9now c9sub c9wresp).amount = 7 ∧
    (mapCreateResp c9now c9sub c9wresp).title = "Taxi" ∧
    (mapCreateResp c9now c9sub c9wresp).category = "Food" :=
  ⟨(c9_create_field_fallback c9now c9sub c9wresp).2.2.2.2.2.2.2.2.1 7 rfl
      (by decide),
   (c9_create_field_fallback c9now c9sub c9wresp).1 "Taxi" rfl (by decide),
   (c9_create_field_fallback c9now c9sub c9wresp).2.2.2.1 rfl⟩

/-- Claim C10: when the selected month key is the empty string, the month
filter stage is skipped entirely and the visible subset is determined by the
text filter alone; in particular a record with no date is not excluded (with
an empty query it stays visible). -/
theorem c10_empty_month_skips (tzMin : Int) (q : String) (es : List Expense) :
    filteredExpenses tzMin none q es =
      (if lowerStr (trimStr q) = "" then es
       else es.filter (textPass (lowerStr (trimStr q)))) ∧
    (∀ e ∈ es, e.date = none → lowerStr (trimStr q) = "" →
      e ∈ filteredExpenses tzMin none q es) := by
  constructor
  · rfl
  · intro e he hd hq
    simpa [filteredExpenses, hq] using he

def c10rec : Expense :=
  { id := 9, title := "Misc", category := "", amount := 1,
    date := none, timestamp := 5, note := "" }

/-- Claim C10, witness: a record with no date is visible under the empty
month key and empty query. -/
theorem c10_empty_month_skips_witness :
    c10rec ∈ filteredExpenses 0 none "" [c10rec] :=
  (c10_empty_month_skips 0 "" [c10rec]).2 c10rec (List.mem_cons_self _ _) rfl rfl

end ExpenseTracker
